import Mathlib

/-!
Shallow embedding of `src/ecc/src/lib.rs`: a prime-field element type
(`FieldElement`) with modular arithmetic over `u64`, and a short-Weierstrass
curve point type (`Point`) with the group-law addition and double-and-add
scalar multiplication.

Machine integers are modelled as `Nat` with explicit wrap-around modulo
`2 ^ 64`, matching Rust release-build semantics where arithmetic overflow
wraps silently (the repository's own spec notes the "risk of silent overflow";
with debug overflow checks the same inputs fail even earlier).  Every Rust
`panic!` — explicit panics, the range check in `FieldElement::new`, remainder
by zero, and `Option::unwrap` on `None` — is modelled by returning `none`,
so each fallible operation has type `Option _`.
-/

namespace Ecc

/-- The modulus of Rust `u64` arithmetic. -/
def u64Mod : Nat := 2 ^ 64

/-- Wrapping `u64` addition. -/
def wadd (x y : Nat) : Nat := (x + y) % u64Mod

/-- Wrapping `u64` subtraction (faithful for operands below `2 ^ 64`,
which is all values a `u64` can hold). -/
def wsub (x y : Nat) : Nat := (x + u64Mod - y) % u64Mod

/-- Wrapping `u64` multiplication. -/
def wmul (x y : Nat) : Nat := (x * y) % u64Mod

/-- Wrapping `u64` exponentiation: `u64::pow` is exponentiation by squaring
with wrapping multiplications, hence congruent to the full power mod `2 ^ 64`. -/
def wpow (x e : Nat) : Nat := (x ^ e) % u64Mod

/-- `struct FieldElement { num: u64, prime: u64 }`. -/
structure FieldElement where
  num : Nat
  prime : Nat
deriving DecidableEq, Repr

/-- `FieldElement::new(num, prime)`: panics when `num >= prime`
(modelled as `none`), otherwise stores the fields unchanged. -/
def FieldElement.new (num prime : Nat) : Option FieldElement :=
  if num ≥ prime then none else some ⟨num, prime⟩

/-- `FieldElement::add`: panics on mismatched primes; computes
`(self.num + other.num) % self.prime` (the `+` wraps at `2 ^ 64`; `% 0`
panics) and re-validates through `new`. -/
def FieldElement.add (self other : FieldElement) : Option FieldElement :=
  if self.prime ≠ other.prime then none
  else if self.prime = 0 then none
  else FieldElement.new (wadd self.num other.num % self.prime) self.prime

/-- `FieldElement::sub`: panics on mismatched primes; computes
`(self.num + self.prime - other.num) % self.prime` with wrapping `u64`
addition and subtraction, and re-validates through `new`. -/
def FieldElement.sub (self other : FieldElement) : Option FieldElement :=
  if self.prime ≠ other.prime then none
  else if self.prime = 0 then none
  else FieldElement.new (wsub (wadd self.num self.prime) other.num % self.prime) self.prime

/-- `FieldElement::mul`: panics on mismatched primes; computes
`(self.num * other.num) % self.prime` (the `*` wraps at `2 ^ 64`) and
re-validates through `new`. -/
def FieldElement.mul (self other : FieldElement) : Option FieldElement :=
  if self.prime ≠ other.prime then none
  else if self.prime = 0 then none
  else FieldElement.new (wmul self.num other.num % self.prime) self.prime

/-- `FieldElement::pow(exponent)`:
`let exp = exponent % (self.prime - 1); self.num.pow(exp as u32) % self.prime`.
The subtraction `self.prime - 1` wraps; `exponent % 0` panics (exactly when
`prime = 1`); the cast `as u32` truncates the reduced exponent to 32 bits;
`u64::pow` wraps at `2 ^ 64`; the final `% self.prime` panics when `prime = 0`.
Note the single reduction modulo `prime` after the full power — there is no
per-multiplication reduction in the source. -/
def FieldElement.pow (self : FieldElement) (exponent : Nat) : Option FieldElement :=
  let m := wsub self.prime 1
  if m = 0 then none
  else
    let exp := exponent % m
    let e32 := exp % 2 ^ 32
    let raw := wpow self.num e32
    if self.prime = 0 then none
    else FieldElement.new (raw % self.prime) self.prime

/-- `FieldElement::div`: panics on mismatched primes; computes
`(self.num * other.pow(self.prime - 2).num) % self.prime` — there is no
guard on `other.num == 0`; the subtraction `self.prime - 2` wraps. -/
def FieldElement.div (self other : FieldElement) : Option FieldElement :=
  if self.prime ≠ other.prime then none
  else
    match FieldElement.pow other (wsub self.prime 2) with
    | none => none
    | some inv =>
      if self.prime = 0 then none
      else FieldElement.new (wmul self.num inv.num % self.prime) self.prime

/-- `struct Point { x: Option<FieldElement>, y: Option<FieldElement>,
a: FieldElement, b: FieldElement }`. -/
structure Point where
  x : Option FieldElement
  y : Option FieldElement
  a : FieldElement
  b : FieldElement
deriving DecidableEq, Repr

/-- The curve-membership test performed by `Point::new` on present
coordinates: `y.pow(2) == x.pow(3).add(&a.mul(x).add(&b))`, each field
operation fallible as in the source. -/
def Point.curveCheck (x y a b : FieldElement) : Option Bool := do
  let lhs ← FieldElement.pow y 2
  let x3 ← FieldElement.pow x 3
  let ax ← FieldElement.mul a x
  let axb ← FieldElement.add ax b
  let rhs ← FieldElement.add x3 axb
  pure (decide (lhs = rhs))

/-- `Point::new(x, y, a, b)`: when both coordinates are present, panics unless
the curve check passes; in every other case (including exactly one coordinate
present) it stores the fields unchanged with no check. -/
def Point.new (x y : Option FieldElement) (a b : FieldElement) : Option Point :=
  match x, y with
  | some xv, some yv =>
    (Point.curveCheck xv yv a b).bind
      (fun ok => if ok then some ⟨x, y, a, b⟩ else none)
  | _, _ => some ⟨x, y, a, b⟩

/-- The slope computed by `Point::add` once both points have both coordinates:
tangent slope `(3*x1^2 + a) / (2*y1)` when `x1 == x2`, chord slope
`(y2 - y1) / (x2 - x1)` otherwise.  `FieldElement::new(3, prime)` and
`FieldElement::new(2, prime)` panic when `prime <= 3` resp. `prime <= 2`. -/
def Point.addSlope (self : Point) (x1 y1 x2 y2 : FieldElement) : Option FieldElement :=
  if x1 = x2 then do
    let sq ← FieldElement.pow x1 2
    let three ← FieldElement.new 3 x1.prime
    let n1 ← FieldElement.mul sq three
    let num ← FieldElement.add n1 self.a
    let two ← FieldElement.new 2 y1.prime
    let denom ← FieldElement.mul y1 two
    FieldElement.div num denom
  else do
    let num ← FieldElement.sub y2 y1
    let denom ← FieldElement.sub x2 x1
    FieldElement.div num denom

/-- The non-identity part of `Point::add`: the vertical-line case returning
the identity, else the slope computation followed by
`x3 = s^2 - x1 - x2`, `y3 = s*(x1 - x3) - y1` and re-validation via
`Point::new`. -/
def Point.addNonIdentity (self : Point) (x1 y1 x2 y2 : FieldElement) : Option Point :=
  if x1 = x2 ∧ y1 ≠ y2 then Point.new none none self.a self.b
  else do
    let s ← Point.addSlope self x1 y1 x2 y2
    let s2 ← FieldElement.pow s 2
    let t1 ← FieldElement.sub s2 x1
    let x3 ← FieldElement.sub t1 x2
    let d ← FieldElement.sub x1 x3
    let m ← FieldElement.mul s d
    let y3 ← FieldElement.sub m y1
    Point.new (some x3) (some y3) self.a self.b

/-- `Point::add`: panics if the curve coefficients differ; returns the other
operand when either operand has `x` absent; then unwraps all four coordinates
(`unwrap` on an absent `y` with `x` present panics) and continues with the
slope cases. -/
def Point.add (self other : Point) : Option Point :=
  if self.a ≠ other.a ∨ self.b ≠ other.b then none
  else if self.x = none then some other
  else if other.x = none then some self
  else
    match self.x, self.y, other.x, other.y with
    | some x1, some y1, some x2, some y2 => Point.addNonIdentity self x1 y1 x2 y2
    | _, _, _, _ => none

/-- The `while coef > 0` loop of `Point::scalar_mul`, written with an explicit
structural fuel so that the definition evaluates by kernel reduction.  The
loop halves `coef` each iteration, so any fuel of at least `coef` iterations
is enough; `scalar_mul` passes the coefficient itself as fuel.  Each iteration
adds `current` into `result` when the low bit is set and then unconditionally
doubles `current`, exactly as the source does. -/
def Point.scalarMulGo : Nat → Point → Point → Nat → Option Point
  | _, _, result, 0 => some result
  | 0, _, _, _ + 1 => none
  | fuel + 1, current, result, coef + 1 =>
    match (if (coef + 1) % 2 = 1 then Point.add result current else some result) with
    | none => none
    | some r =>
      match Point.add current current with
      | none => none
      | some c => Point.scalarMulGo fuel c r ((coef + 1) / 2)

/-- `Point::scalar_mul(coefficient)`: double-and-add starting from
`result = Point::new(None, None, a, b)` and `current = self`. -/
def Point.scalar_mul (self : Point) (coefficient : Nat) : Option Point :=
  match Point.new none none self.a self.b with
  | none => none
  | some result => Point.scalarMulGo coefficient self result coefficient

/-- The data-model invariant claimed by the spec for `Point`: `x` and `y` are
both absent or both present, and present coordinates pass the source's
curve-membership check. -/
def pointInvB (p : Point) : Bool :=
  match p.x, p.y with
  | none, none => true
  | some xv, some yv => decide (Point.curveCheck xv yv p.a p.b = some true)
  | _, _ => false

/-- Modelled from the spec claim's words for C6: "`P` added to itself `n`
times via repeated `add` starting from the identity". -/
def Point.iterAddSpec (p : Point) : Nat → Option Point
  | 0 => Point.new none none p.a p.b
  | n + 1 =>
    match Point.iterAddSpec p n with
    | none => none
    | some q => Point.add q p

end Ecc

namespace Ecc

/-! ### Helper lemmas -/

theorem Point.new_none_none (a b : FieldElement) :
    Point.new none none a b = some ⟨none, none, a, b⟩ := rfl

theorem pointInvB_identity (a b : FieldElement) :
    pointInvB ⟨none, none, a, b⟩ = true := rfl

theorem Point.new_some_eq (x y a b : FieldElement) :
    Point.new (some x) (some y) a b =
      (Point.curveCheck x y a b).bind
        (fun ok => if ok then some ⟨some x, some y, a, b⟩ else none) := rfl

theorem Point.new_some_elim (x y a b : FieldElement) (p : Point)
    (h : Point.new (some x) (some y) a b = some p) :
    Point.curveCheck x y a b = some true ∧ p = ⟨some x, some y, a, b⟩ := by
  rw [Point.new_some_eq, Option.bind_eq_some] at h
  obtain ⟨ok, hc, hif⟩ := h
  cases ok with
  | false => simp at hif
  | true =>
    rw [if_pos rfl] at hif
    cases hif
    exact ⟨hc, rfl⟩

theorem Point.new_some_inv (x y a b : FieldElement) (p : Point)
    (h : Point.new (some x) (some y) a b = some p) : pointInvB p = true := by
  obtain ⟨hc, hp⟩ := Point.new_some_elim x y a b p h
  subst hp
  simp [pointInvB, hc]

theorem Point.addNonIdentity_inv (self : Point) (x1 y1 x2 y2 : FieldElement) (r : Point)
    (h : Point.addNonIdentity self x1 y1 x2 y2 = some r) : pointInvB r = true := by
  unfold Point.addNonIdentity at h
  split at h
  · rw [Point.new_none_none] at h
    cases h
    exact pointInvB_identity _ _
  · simp only [bind, Option.bind_eq_some] at h
    obtain ⟨s, -, s2, -, t1, -, x3, -, d, -, m, -, y3, -, hnew⟩ := h
    exact Point.new_some_inv _ _ _ _ _ hnew

theorem Point.addNonIdentity_ab (self : Point) (x1 y1 x2 y2 : FieldElement) (r : Point)
    (h : Point.addNonIdentity self x1 y1 x2 y2 = some r) :
    r.a = self.a ∧ r.b = self.b := by
  unfold Point.addNonIdentity at h
  split at h
  · rw [Point.new_none_none] at h
    cases h
    exact ⟨rfl, rfl⟩
  · simp only [bind, Option.bind_eq_some] at h
    obtain ⟨s, -, s2, -, t1, -, x3, -, d, -, m, -, y3, -, hnew⟩ := h
    obtain ⟨-, hp⟩ := Point.new_some_elim _ _ _ _ _ hnew
    subst hp
    exact ⟨rfl, rfl⟩

theorem Point.add_inv (p q r : Point) (hp : pointInvB p = true) (hq : pointInvB q = true)
    (h : Point.add p q = some r) : pointInvB r = true := by
  unfold Point.add at h
  split at h
  · exact absurd h (by simp)
  · split at h
    · cases h; exact hq
    · split at h
      · cases h; exact hp
      · split at h
        · exact Point.addNonIdentity_inv _ _ _ _ _ _ h
        · exact absurd h (by simp)

theorem Point.add_ab (p q r : Point) (h : Point.add p q = some r) :
    r.a = p.a ∧ r.b = p.b := by
  unfold Point.add at h
  split at h
  · exact absurd h (by simp)
  next hab =>
    push_neg at hab
    split at h
    · cases h; exact ⟨hab.1.symm, hab.2.symm⟩
    · split at h
      · cases h; exact ⟨rfl, rfl⟩
      · split at h
        · exact Point.addNonIdentity_ab _ _ _ _ _ _ h
        · exact absurd h (by simp)

theorem Point.scalarMulGo_inv (fuel : Nat) :
    ∀ current result r coef, pointInvB current = true → pointInvB result = true →
      Point.scalarMulGo fuel current result coef = some r → pointInvB r = true := by
  induction fuel with
  | zero =>
    intro current result r coef hc hr h
    cases coef with
    | zero => cases h; exact hr
    | succ n => exact absurd h (by simp [Point.scalarMulGo])
  | succ fuel ih =>
    intro current result r coef hc hr h
    cases coef with
    | zero => cases h; exact hr
    | succ n =>
      unfold Point.scalarMulGo at h
      cases hb : (if (n + 1) % 2 = 1 then Point.add result current else some result) with
      | none => rw [hb] at h; exact absurd h (by simp)
      | some r1 =>
        rw [hb] at h
        have hr1 : pointInvB r1 = true := by
          split at hb
          · exact Point.add_inv _ _ _ hr hc hb
          · cases hb; exact hr
        cases hcc : Point.add current current with
        | none => rw [hcc] at h; exact absurd h (by simp)
        | some c =>
          rw [hcc] at h
          exact ih c r1 r ((n + 1) / 2) (Point.add_inv _ _ _ hc hc hcc) hr1 h

theorem Point.scalar_mul_inv (p : Point) (n : Nat) (r : Point)
    (hp : pointInvB p = true) (h : Point.scalar_mul p n = some r) : pointInvB r = true := by
  unfold Point.scalar_mul at h
  rw [Point.new_none_none] at h
  exact Point.scalarMulGo_inv n p ⟨none, none, p.a, p.b⟩ r n hp (pointInvB_identity _ _) h

theorem Point.add_left_id (a b : FieldElement) (q : Point) (ha : q.a = a) (hb : q.b = b) :
    Point.add ⟨none, none, a, b⟩ q = some q := by
  unfold Point.add
  rw [if_neg (not_or.mpr ⟨fun h => h ha.symm, fun h => h hb.symm⟩), if_pos rfl]

end Ecc

namespace Ecc

/-! ### Claim theorems -/

/-- Claim C1 (code bug): the spec requires `pow` to return
`num^(exponent mod (prime-1)) mod prime` with a reduction modulo `prime` at
each multiplication step.  The source instead computes the full power in
`u64` and reduces once at the end, so the power wraps at `2 ^ 64`: for
`num = 2`, `prime = 67`, `exponent = 64` the code yields `0` (since
`2 ^ 64` wraps to `0`) while the claimed value `2 ^ (64 % 66) % 67` is `17`. -/
theorem c1_pow_single_end_reduction :
    FieldElement.pow ⟨2, 67⟩ 64 = some ⟨0, 67⟩
    ∧ (2 : Nat) ^ (64 % 66) % 67 = 17 := by decide

/-- Claim C2 (code bug): the spec says `div` fails with a division-by-zero
error when `other.num == 0`.  The source has no such guard: it computes
`0 ^ (prime - 2) = 0` and silently returns the zero element, e.g.
`(3 mod 7) / (0 mod 7)` returns `0 mod 7` instead of failing. -/
theorem c2_div_by_zero_silently_succeeds :
    FieldElement.div ⟨3, 7⟩ ⟨0, 7⟩ = some ⟨0, 7⟩ := by decide

/-- Claim C3 (code bug): the spec says doubling a point with `y1 == 0` fails
explicitly with a division-by-zero error.  In the source the slope division
by the zero element silently returns `0` (third conjunct: the concrete slope
division `108 / 0` in the field of 223 succeeds), so doubling the 2-torsion
point `(6, 0)` on `y^2 = x^3 + 7` over `F_223` instead fails later with a
not-on-curve panic from `Point::new` (the computed candidate `(211, 0)` is
off the curve), and on the curve `y^2 = x^3` over `F_7` doubling `(0, 0)`
silently returns the wrong point `(0, 0)` with no error at all. -/
theorem c3_doubling_y_zero_not_div_error :
    Point.new (some ⟨6, 223⟩) (some ⟨0, 223⟩) ⟨0, 223⟩ ⟨7, 223⟩ =
      some ⟨some ⟨6, 223⟩, some ⟨0, 223⟩, ⟨0, 223⟩, ⟨7, 223⟩⟩
    ∧ FieldElement.div ⟨108, 223⟩ ⟨0, 223⟩ = some ⟨0, 223⟩
    ∧ Point.add ⟨some ⟨6, 223⟩, some ⟨0, 223⟩, ⟨0, 223⟩, ⟨7, 223⟩⟩
        ⟨some ⟨6, 223⟩, some ⟨0, 223⟩, ⟨0, 223⟩, ⟨7, 223⟩⟩ = none
    ∧ Point.new (some ⟨0, 7⟩) (some ⟨0, 7⟩) ⟨0, 7⟩ ⟨0, 7⟩ =
      some ⟨some ⟨0, 7⟩, some ⟨0, 7⟩, ⟨0, 7⟩, ⟨0, 7⟩⟩
    ∧ Point.add ⟨some ⟨0, 7⟩, some ⟨0, 7⟩, ⟨0, 7⟩, ⟨0, 7⟩⟩
        ⟨some ⟨0, 7⟩, some ⟨0, 7⟩, ⟨0, 7⟩, ⟨0, 7⟩⟩ =
      some ⟨some ⟨0, 7⟩, some ⟨0, 7⟩, ⟨0, 7⟩, ⟨0, 7⟩⟩ := by decide

/-- Claim C4, counterexample: `Point::new` with `x` present and `y` absent
succeeds with no check at all, producing a point that violates the claimed
both-absent-or-both-present invariant. -/
theorem c4_counterexample :
    Point.new (some ⟨1, 223⟩) none ⟨0, 223⟩ ⟨7, 223⟩ =
      some ⟨some ⟨1, 223⟩, none, ⟨0, 223⟩, ⟨7, 223⟩⟩
    ∧ pointInvB ⟨some ⟨1, 223⟩, none, ⟨0, 223⟩, ⟨7, 223⟩⟩ = false := by decide

/-- Claim C4 (amended): points produced by `Point::new` with both coordinates
present or both absent satisfy the invariant (both-or-neither presence, and
present coordinates pass the source's curve check), and every point returned
by `Point::add` or `Point::scalar_mul` on invariant-satisfying inputs
satisfies the invariant; `Point::new` with exactly one coordinate present,
however, succeeds unchecked and violates it. -/
theorem c4_point_invariant_amended :
    (∀ x y a b : FieldElement, ∀ p : Point,
        Point.new (some x) (some y) a b = some p → pointInvB p = true)
    ∧ (∀ a b : FieldElement, Point.new none none a b = some ⟨none, none, a, b⟩
        ∧ pointInvB ⟨none, none, a, b⟩ = true)
    ∧ (∀ p q r : Point, pointInvB p = true → pointInvB q = true →
        Point.add p q = some r → pointInvB r = true)
    ∧ (∀ p r : Point, ∀ n : Nat, pointInvB p = true →
        Point.scalar_mul p n = some r → pointInvB r = true) :=
  ⟨Point.new_some_inv,
   fun a b => ⟨Point.new_none_none a b, pointInvB_identity a b⟩,
   Point.add_inv,
   fun p r n hp h => Point.scalar_mul_inv p n r hp h⟩

/-- Witness for C4: the invariant holds for the concrete point `(170, 142)`
constructed by `Point::new` on the curve `y^2 = x^3 + 7` over `F_223`. -/
theorem c4_point_invariant_amended_witness :
    pointInvB ⟨some ⟨170, 223⟩, some ⟨142, 223⟩, ⟨0, 223⟩, ⟨7, 223⟩⟩ = true :=
  c4_point_invariant_amended.1 ⟨170, 223⟩ ⟨142, 223⟩ ⟨0, 223⟩ ⟨7, 223⟩
    ⟨some ⟨170, 223⟩, some ⟨142, 223⟩, ⟨0, 223⟩, ⟨7, 223⟩⟩ (by decide)

/-- Claim C5 (field closure): for valid elements over the same prime, each of
`add`, `sub`, `mul` succeeds and yields an element with `num` in
`[0, prime)` and the same prime. -/
theorem c5_field_closure :
    ∀ a b : FieldElement, a.num < a.prime → b.num < b.prime → a.prime = b.prime →
    (∃ r, FieldElement.add a b = some r ∧ r.num < a.prime ∧ r.prime = a.prime)
    ∧ (∃ r, FieldElement.sub a b = some r ∧ r.num < a.prime ∧ r.prime = a.prime)
    ∧ (∃ r, FieldElement.mul a b = some r ∧ r.num < a.prime ∧ r.prime = a.prime) := by
  intro a b ha hb hpr
  have hp0 : 0 < a.prime := Nat.lt_of_le_of_lt (Nat.zero_le _) ha
  refine ⟨⟨⟨wadd a.num b.num % a.prime, a.prime⟩, ?_, Nat.mod_lt _ hp0, rfl⟩,
    ⟨⟨wsub (wadd a.num a.prime) b.num % a.prime, a.prime⟩, ?_, Nat.mod_lt _ hp0, rfl⟩,
    ⟨⟨wmul a.num b.num % a.prime, a.prime⟩, ?_, Nat.mod_lt _ hp0, rfl⟩⟩
  · unfold FieldElement.add FieldElement.new
    rw [if_neg (fun h => h hpr), if_neg hp0.ne',
      if_neg (by have := Nat.mod_lt (wadd a.num b.num) hp0; omega)]
  · unfold FieldElement.sub FieldElement.new
    rw [if_neg (fun h => h hpr), if_neg hp0.ne',
      if_neg (by have := Nat.mod_lt (wsub (wadd a.num a.prime) b.num) hp0; omega)]
  · unfold FieldElement.mul FieldElement.new
    rw [if_neg (fun h => h hpr), if_neg hp0.ne',
      if_neg (by have := Nat.mod_lt (wmul a.num b.num) hp0; omega)]

/-- Witness for C5 at the concrete elements `3 mod 7` and `5 mod 7`. -/
theorem c5_field_closure_witness :
    (∃ r, FieldElement.add ⟨3, 7⟩ ⟨5, 7⟩ = some r ∧ r.num < 7 ∧ r.prime = 7)
    ∧ (∃ r, FieldElement.sub ⟨3, 7⟩ ⟨5, 7⟩ = some r ∧ r.num < 7 ∧ r.prime = 7)
    ∧ (∃ r, FieldElement.mul ⟨3, 7⟩ ⟨5, 7⟩ = some r ∧ r.num < 7 ∧ r.prime = 7) :=
  c5_field_closure ⟨3, 7⟩ ⟨5, 7⟩ (by decide) (by decide) rfl

/-- Claim C6, counterexample: `(47, 71)` is a valid point of the curve
`y^2 = x^3 + 7` over `F_223`, one repeated `add` starting from the identity
returns the point itself, yet `scalar_mul(1)` fails (returns no point),
because the loop unconditionally doubles `current` and the doubling fails
inside the overflowing `pow`; so `scalar_mul(n)` does not equal `n`-fold
repeated `add` for every valid point and small `n`. -/
theorem c6_counterexample :
    pointInvB ⟨some ⟨47, 223⟩, some ⟨71, 223⟩, ⟨0, 223⟩, ⟨7, 223⟩⟩ = true
    ∧ Point.iterAddSpec ⟨some ⟨47, 223⟩, some ⟨71, 223⟩, ⟨0, 223⟩, ⟨7, 223⟩⟩ 1 =
        some ⟨some ⟨47, 223⟩, some ⟨71, 223⟩, ⟨0, 223⟩, ⟨7, 223⟩⟩
    ∧ Point.scalar_mul ⟨some ⟨47, 223⟩, some ⟨71, 223⟩, ⟨0, 223⟩, ⟨7, 223⟩⟩ 1 = none
    ∧ Point.scalar_mul ⟨some ⟨47, 223⟩, some ⟨71, 223⟩, ⟨0, 223⟩, ⟨7, 223⟩⟩ 1 ≠
        Point.iterAddSpec ⟨some ⟨47, 223⟩, some ⟨71, 223⟩, ⟨0, 223⟩, ⟨7, 223⟩⟩ 1 := by decide

/-- Claim C6 (amended): `scalar_mul(0)` yields the identity for every point
(matching repeated `add` zero times), and for `n = 1` and `n = 2`,
`scalar_mul(n)` equals `P` added to itself `n` times via repeated `add`
starting from the identity, provided each doubling the loop performs
succeeds; when a doubling fails, `scalar_mul` fails even though repeated
`add` can succeed. -/
theorem c6_scalar_mul_amended :
    (∀ p : Point, Point.scalar_mul p 0 = some ⟨none, none, p.a, p.b⟩
      ∧ Point.iterAddSpec p 0 = some ⟨none, none, p.a, p.b⟩)
    ∧ (∀ p D : Point, Point.add p p = some D →
        Point.scalar_mul p 1 = Point.iterAddSpec p 1)
    ∧ (∀ p D E : Point, Point.add p p = some D → Point.add D D = some E →
        Point.scalar_mul p 2 = Point.iterAddSpec p 2) := by
  refine ⟨fun p => ⟨rfl, rfl⟩, ?_, ?_⟩
  · intro p D hD
    have hIp : Point.add ⟨none, none, p.a, p.b⟩ p = some p :=
      Point.add_left_id _ _ _ rfl rfl
    have lhs : Point.scalar_mul p 1 =
        (match Point.add ⟨none, none, p.a, p.b⟩ p with
         | none => none
         | some r =>
           match Point.add p p with
           | none => none
           | some _ => some r) := rfl
    have rhs : Point.iterAddSpec p 1 = Point.add ⟨none, none, p.a, p.b⟩ p := rfl
    rw [lhs, rhs, hIp, hD]
  · intro p D E hD hE
    have hIp : Point.add ⟨none, none, p.a, p.b⟩ p = some p :=
      Point.add_left_id _ _ _ rfl rfl
    obtain ⟨hDa, hDb⟩ := Point.add_ab p p D hD
    have hID : Point.add ⟨none, none, p.a, p.b⟩ D = some D :=
      Point.add_left_id _ _ _ hDa hDb
    have lhs : Point.scalar_mul p 2 =
        (match Point.add p p with
         | none => none
         | some c =>
           match Point.add ⟨none, none, p.a, p.b⟩ c with
           | none => none
           | some r =>
             match Point.add c c with
             | none => none
             | some _ => some r) := rfl
    have rhs : Point.iterAddSpec p 2 =
        (match Point.add ⟨none, none, p.a, p.b⟩ p with
         | none => none
         | some q => Point.add q p) := rfl
    rw [lhs, rhs, hD, hIp]
    dsimp only
    rw [hID, hE]
    dsimp only
    exact hD.symm

/-- Witness for C6 on the curve `y^2 = x^3 + 3` over `F_7`, whose doublings
are small enough not to overflow: `scalar_mul(2)` of `(1, 2)` agrees with
two repeated additions. -/
theorem c6_scalar_mul_amended_witness :
    Point.scalar_mul ⟨some ⟨1, 7⟩, some ⟨2, 7⟩, ⟨0, 7⟩, ⟨3, 7⟩⟩ 2 =
      Point.iterAddSpec ⟨some ⟨1, 7⟩, some ⟨2, 7⟩, ⟨0, 7⟩, ⟨3, 7⟩⟩ 2 :=
  c6_scalar_mul_amended.2.2 ⟨some ⟨1, 7⟩, some ⟨2, 7⟩, ⟨0, 7⟩, ⟨3, 7⟩⟩
    ⟨some ⟨6, 7⟩, some ⟨3, 7⟩, ⟨0, 7⟩, ⟨3, 7⟩⟩
    ⟨some ⟨4, 7⟩, some ⟨5, 7⟩, ⟨0, 7⟩, ⟨3, 7⟩⟩ (by decide) (by decide)

/-- Claim C7 (group identity): adding the identity (point at infinity with
the same curve coefficients) on either side of a valid point returns that
point unchanged. -/
theorem c7_group_identity :
    ∀ p : Point, pointInvB p = true →
    Point.add p ⟨none, none, p.a, p.b⟩ = some p ∧
    Point.add ⟨none, none, p.a, p.b⟩ p = some p := by
  intro p hp
  constructor
  · unfold Point.add
    rw [if_neg (not_or.mpr ⟨fun h => h rfl, fun h => h rfl⟩)]
    by_cases hx : p.x = none
    · rw [if_pos hx]
      have hy : p.y = none := by
        cases p with
        | mk x y a b =>
          cases x with
          | none =>
            cases y with
            | none => rfl
            | some yv => simp [pointInvB] at hp
          | some xv => simp at hx
      cases p
      simp_all
    · rw [if_neg hx, if_pos rfl]
  · exact Point.add_left_id _ _ _ rfl rfl

/-- Witness for C7 at the concrete point `(192, 105)` on `y^2 = x^3 + 7`
over `F_223`. -/
theorem c7_group_identity_witness :
    Point.add ⟨some ⟨192, 223⟩, some ⟨105, 223⟩, ⟨0, 223⟩, ⟨7, 223⟩⟩
      ⟨none, none, ⟨0, 223⟩, ⟨7, 223⟩⟩ =
      some ⟨some ⟨192, 223⟩, some ⟨105, 223⟩, ⟨0, 223⟩, ⟨7, 223⟩⟩ ∧
    Point.add ⟨none, none, ⟨0, 223⟩, ⟨7, 223⟩⟩
      ⟨some ⟨192, 223⟩, some ⟨105, 223⟩, ⟨0, 223⟩, ⟨7, 223⟩⟩ =
      some ⟨some ⟨192, 223⟩, some ⟨105, 223⟩, ⟨0, 223⟩, ⟨7, 223⟩⟩ :=
  c7_group_identity ⟨some ⟨192, 223⟩, some ⟨105, 223⟩, ⟨0, 223⟩, ⟨7, 223⟩⟩ (by decide)

/-- Claim C8: `FieldElement::new(num, prime)` fails exactly when
`num >= prime`, otherwise returns the element with `num` and `prime`
unchanged; in particular `new(223, 223)` fails. -/
theorem c8_new_range_check :
    (∀ num prime : Nat, FieldElement.new num prime =
        if num ≥ prime then none else some ⟨num, prime⟩)
    ∧ FieldElement.new 223 223 = none :=
  ⟨fun _ _ => rfl, rfl⟩

/-- Claim C9 (code bug): the spec and the repository's own test
`test_point_addition` say `(192, 105) + (17, 56) = (170, 142)` on
`y^2 = x^3 + 7` over `F_223`.  On the source, the slope division computes
`48 ^ 221` in `u64`, which wraps to `0` (in a debug build it panics on
overflow), giving slope `0` and candidate point `(14, 118)`, which the final
`Point::new` rejects as not on the curve — so `add` fails instead of
returning `(170, 142)`, even though `(170, 142)` is a genuine curve point
(second conjunct). -/
theorem c9_test_point_addition_fails :
    Point.add ⟨some ⟨192, 223⟩, some ⟨105, 223⟩, ⟨0, 223⟩, ⟨7, 223⟩⟩
      ⟨some ⟨17, 223⟩, some ⟨56, 223⟩, ⟨0, 223⟩, ⟨7, 223⟩⟩ = none
    ∧ Point.new (some ⟨170, 223⟩) (some ⟨142, 223⟩) ⟨0, 223⟩ ⟨7, 223⟩ =
        some ⟨some ⟨170, 223⟩, some ⟨142, 223⟩, ⟨0, 223⟩, ⟨7, 223⟩⟩ := by decide

/-- Claim C10: `FieldElement::new(0, 1)` succeeds, `pow` on any element with
`prime = 1` fails for every exponent (the exponent reduction takes a
remainder by `prime - 1 = 0`, which panics), and `pow` is total for every
element whose prime is at least 2 (and in the representable `u64` range). -/
theorem c10_pow_prime_one_panics :
    FieldElement.new 0 1 = some ⟨0, 1⟩
    ∧ (∀ fe : FieldElement, fe.prime = 1 → ∀ e, FieldElement.pow fe e = none)
    ∧ (∀ fe : FieldElement, 2 ≤ fe.prime → fe.prime < u64Mod → ∀ e,
        ∃ r, FieldElement.pow fe e = some r) := by
  refine ⟨rfl, ?_, ?_⟩
  · intro fe h1 e
    unfold FieldElement.pow
    rw [h1]
    rfl
  · intro fe h2 hM e
    have hMv : u64Mod = 18446744073709551616 := by norm_num [u64Mod]
    have hm : wsub fe.prime 1 = fe.prime - 1 := by
      unfold wsub
      rw [hMv] at hM ⊢
      omega
    have hm0 : fe.prime - 1 ≠ 0 := by omega
    have hp0 : fe.prime ≠ 0 := by omega
    refine ⟨⟨wpow fe.num ((e % (fe.prime - 1)) % 2 ^ 32) % fe.prime, fe.prime⟩, ?_⟩
    unfold FieldElement.pow FieldElement.new
    rw [hm]
    rw [if_neg hm0, if_neg hp0,
      if_neg (by have := Nat.mod_lt (wpow fe.num ((e % (fe.prime - 1)) % 2 ^ 32))
                    (Nat.pos_of_ne_zero hp0); omega)]

/-- Witness for C10: `pow` fails on the concrete element `0 mod 1` and
succeeds on the concrete element `2 mod 67`. -/
theorem c10_pow_prime_one_panics_witness :
    FieldElement.pow ⟨0, 1⟩ 5 = none
    ∧ ∃ r, FieldElement.pow ⟨2, 67⟩ 3 = some r :=
  ⟨c10_pow_prime_one_panics.2.1 ⟨0, 1⟩ rfl 5,
   c10_pow_prime_one_panics.2.2 ⟨2, 67⟩ (by decide) (by decide) 3⟩

end Ecc
